import Mathlib

/-! # write_gpt.c — protective MBR / GPT image builder

A shallow embedding of `src/write_gpt.c`.  Machine integers are natural
numbers; every store into a `uintN_t` object whose right-hand side is
computed in a wider type is reduced modulo `2^N` explicitly.  Bytes are
natural numbers below 256.  Packed structures are serialised in the byte
order of the little-endian target the program is written for.
-/

namespace WriteGpt

/-! ## CRC32 (`create_crc32_table`, `calculate_crc32`) -/

/-- One pass of the inner `k` loop body of `create_crc32_table`:
`if (c & 1) c = 0xedb88320L ^ (c >> 1); else c = c >> 1;`, the result stored
into the `uint32_t c`. -/
def crc_table_step (c : Nat) : Nat :=
  if c &&& 1 ≠ 0 then (0xedb88320 ^^^ (c >>> 1)) % 4294967296 else c >>> 1

/-- The value assigned to `crc_table[n]`: `c = (uint32_t) n` followed by the
eight iterations `k = 0 .. 7` of the inner loop. -/
def crc_table_entry (n : Nat) : Nat :=
  (List.range 8).foldl (fun c _ => crc_table_step c) (n % 4294967296)

/-- The function `create_crc32_table`, as a transformer of the global array
`crc_table`: for `n = 0 .. 255` it stores the computed word at index `n`. -/
def create_crc32_table (crc_table : List Nat) : List Nat :=
  (List.range 256).foldl (fun t n => t.set n (crc_table_entry n)) crc_table

/-- The function `calculate_crc32(buff, len)`, run on a given content of the
global `crc_table`.  The `static bool made_crc_table` is never assigned, so
the table is rebuilt on every call.  The loop runs for `n = 0 .. len - 1`
(not at all when `len <= 0`) and reads `bufp[n]`; past the last byte of
`buff`, where the C program has no defined behaviour, the model reads 0.
Returns the checksum together with the content of `crc_table` after the
call. -/
def calculate_crc32 (crc_table : List Nat) (buff : List Nat) (len : Int) : Nat × List Nat :=
  let crc_table := create_crc32_table crc_table
  let c := (List.range len.toNat).foldl
    (fun c n => crc_table.getD ((c ^^^ buff.getD n 0) &&& 0xFF) 0 ^^^ (c >>> 8)) 0xFFFFFFFF
  ((c ^^^ 0xFFFFFFFF) % 4294967296, crc_table)

/-- The initial content of the global `crc_table` (static storage is
zero-initialised). -/
def crc_table_init : List Nat := List.replicate 256 0

/-! ### Bit-by-bit reference definition of CRC-32 (IEEE 802.3)

These definitions follow the specification's description of the checksum
(reflected polynomial `0xEDB88320`, initial register `0xFFFFFFFF`, final XOR
`0xFFFFFFFF`), not the source; `calculate_crc32` is compared with them. -/

/-- The reflected polynomial of CRC-32. -/
def crc32_poly : Nat := 0xEDB88320

/-- Reference: process one bit of the register, least significant bit first. -/
def crc32_ref_bit (r : Nat) : Nat :=
  if r % 2 = 1 then (r / 2) ^^^ crc32_poly else r / 2

/-- Reference: feed one byte into the register, bit by bit. -/
def crc32_ref_byte (r : Nat) (b : Nat) : Nat :=
  crc32_ref_bit^[8] (r ^^^ b)

/-- Reference CRC-32: initial register `0xFFFFFFFF`, bytes fed in order,
final XOR with `0xFFFFFFFF`. -/
def crc32_ref (bytes : List Nat) : Nat :=
  bytes.foldl crc32_ref_byte 0xFFFFFFFF ^^^ 0xFFFFFFFF

/-! ## Size / LBA calculator (`bytes_to_lbas`) -/

/-- The function `bytes_to_lbas(bytes)`, with the global `lba_size` passed in:
`(bytes / lba_size) + (bytes % lba_size > 0 ? 1 : 0)` in `uint64_t`.  Division
by `lba_size = 0` is undefined in C and outside every statement below. -/
def bytes_to_lbas (lba_size : Nat) (bytes : Nat) : Nat :=
  ((bytes / lba_size) + (if bytes % lba_size > 0 then 1 else 0)) % 18446744073709551616

/-! ## On-disk structures and their serialisation -/

/-- The `n` bytes of an `n`-byte unsigned integer field, least significant
byte first. -/
def le_bytes (n : Nat) (v : Nat) : List Nat :=
  (List.range n).map (fun i => v / 256 ^ i % 256)

/-- The unsigned integer read back from bytes stored least significant byte
first (the value of `*(uintN_t *)p` on the little-endian target). -/
def le_value (bs : List Nat) : Nat :=
  bs.foldr (fun b acc => b + 256 * acc) 0

/-- The wrapping subtraction `a - b` of two `uint64_t` values. -/
def sub64 (a b : Nat) : Nat :=
  (a + 18446744073709551616 - b) % 18446744073709551616

/-- The bit pattern of `~x` for a 32-bit `int` operand `x`. -/
def int_not (x : Nat) : Nat :=
  0xFFFFFFFF ^^^ x

/-- The packed structure `GUID`. -/
structure GUID where
  time_lo : Nat
  time_mid : Nat
  time_hi_and_ver : Nat
  clock_seq_hi_and_res : Nat
  clock_seq_lo : Nat
  node : List Nat
  deriving DecidableEq

/-- The packed structure `Mbr_Partition`. -/
structure Mbr_Partition where
  boot_indicator : Nat
  starting_chs : List Nat
  os_type : Nat
  ending_chs : List Nat
  starting_lba : Nat
  size_lba : Nat
  deriving DecidableEq

/-- The packed structure `Mbr`. -/
structure Mbr where
  boot_code : List Nat
  mbr_signature : Nat
  unknown : Nat
  partition : List Mbr_Partition
  boot_signature : Nat
  deriving DecidableEq

/-- The packed structure `Gpt_Header`. -/
structure Gpt_Header where
  signature : List Nat
  revision : Nat
  header_size : Nat
  header_crc32 : Nat
  reserved_1 : Nat
  my_lba : Nat
  alternate_lba : Nat
  first_usable_lba : Nat
  last_usable_lba : Nat
  disk_guid : GUID
  partition_table_lba : Nat
  number_of_entries : Nat
  size_of_entires : Nat
  partition_table_crc32 : Nat
  reserved_2 : List Nat
  deriving DecidableEq

/-- An `Mbr_Partition` with every member zero, as left by an initialiser that
does not mention it. -/
def Mbr_Partition.zero : Mbr_Partition :=
  { boot_indicator := 0, starting_chs := [0, 0, 0], os_type := 0, ending_chs := [0, 0, 0],
    starting_lba := 0, size_lba := 0 }

/-- The 16 bytes of a `GUID` object in memory. -/
def GUID.bytes (g : GUID) : List Nat :=
  le_bytes 4 g.time_lo ++ le_bytes 2 g.time_mid ++ le_bytes 2 g.time_hi_and_ver ++
    [g.clock_seq_hi_and_res] ++ [g.clock_seq_lo] ++ g.node

/-- The 16 bytes of an `Mbr_Partition` object in memory. -/
def Mbr_Partition.bytes (p : Mbr_Partition) : List Nat :=
  [p.boot_indicator] ++ p.starting_chs ++ [p.os_type] ++ p.ending_chs ++
    le_bytes 4 p.starting_lba ++ le_bytes 4 p.size_lba

/-- The 512 bytes of an `Mbr` object in memory. -/
def Mbr.bytes (m : Mbr) : List Nat :=
  m.boot_code ++ le_bytes 4 m.mbr_signature ++ le_bytes 2 m.unknown ++
    (m.partition.map Mbr_Partition.bytes).flatten ++ le_bytes 2 m.boot_signature

/-- The 512 bytes of a `Gpt_Header` object in memory. -/
def Gpt_Header.bytes (h : Gpt_Header) : List Nat :=
  h.signature ++ le_bytes 4 h.revision ++ le_bytes 4 h.header_size ++
    le_bytes 4 h.header_crc32 ++ le_bytes 4 h.reserved_1 ++ le_bytes 8 h.my_lba ++
    le_bytes 8 h.alternate_lba ++ le_bytes 8 h.first_usable_lba ++
    le_bytes 8 h.last_usable_lba ++ h.disk_guid.bytes ++ le_bytes 8 h.partition_table_lba ++
    le_bytes 4 h.number_of_entries ++ le_bytes 4 h.size_of_entires ++
    le_bytes 4 h.partition_table_crc32 ++ h.reserved_2

/-- A header with its `header_crc32` member set to zero, the form over which
the checksum of a header is taken. -/
def Gpt_Header.clear_header_crc32 (h : Gpt_Header) : Gpt_Header :=
  { h with header_crc32 := 0 }

/-! ## Output stream -/

/-- The call `fwrite(ptr, size, nmemb, image)` on a stream that is only ever
appended to: `data` are the `size * nmemb` bytes at `ptr`, `image` the bytes
written so far, and `stored` the number of bytes the environment accepts
before the stream fails.  Returns the number of complete items written and
the new content. -/
def fwrite (data : List Nat) (size nmemb : Nat) (stored : Nat) (image : List Nat) :
    Nat × List Nat :=
  let k := min stored (size * nmemb)
  (k / size, image ++ data.take k)

/-! ## GUID generator (`new_guid`) -/

/-- The array `rand_arr` after the filling loop of `new_guid`: `rand i` is the
value returned by the `i`-th call of `rand()`, and
`rand_arr[i] = rand() % (UINT8_MAX + 1)` for `i = 0 .. 15`. -/
def new_guid.rand_arr (rand : Nat → Nat) : List Nat :=
  (List.range 16).map (fun i => rand i % (255 + 1))

/-- The function `new_guid`, given the values returned by its sixteen calls of
`rand()`.  The multi-byte members are read through casted pointers into
`rand_arr`; each compound assignment is evaluated in `int` and stored back
into the 16-bit or 8-bit member. -/
def new_guid (rand : Nat → Nat) : GUID :=
  let rand_arr := new_guid.rand_arr rand
  let result : GUID :=
    { time_lo := le_value ((rand_arr.drop 0).take 4)
      time_mid := le_value ((rand_arr.drop 4).take 2)
      time_hi_and_ver := le_value ((rand_arr.drop 6).take 2)
      clock_seq_hi_and_res := rand_arr.getD 8 0
      clock_seq_lo := rand_arr.getD 9 0
      node := [rand_arr.getD 10 0, rand_arr.getD 11 0, rand_arr.getD 12 0,
               rand_arr.getD 13 0, rand_arr.getD 14 0, rand_arr.getD 15 0] }
  -- Fill out version bits
  let t := result.time_hi_and_ver
  let t := (t &&& int_not (1 <<< 15)) % 65536
  let t := (t ||| (1 <<< 14)) % 65536
  let t := (t &&& int_not (1 <<< 13)) % 65536
  let t := (t &&& int_not (1 <<< 12)) % 65536
  -- Fill out variant bits
  let s := result.clock_seq_hi_and_res
  let s := (s ||| (1 <<< 7)) % 256
  let s := (s ||| (1 <<< 6)) % 256
  let s := (s &&& int_not (1 <<< 5)) % 256
  { result with time_hi_and_ver := t, clock_seq_hi_and_res := s }

/-! ## MBR builder (`write_mbr`) -/

/-- The local object `mbr` of `write_mbr`, built from the global
`image_size_lbas`.  Members the initialiser does not mention are zero; the
`uint64_t` expression `mbr_image_lbas - 1` is truncated by the store into the
32-bit member `size_lba`. -/
def write_mbr.mbr (image_size_lbas : Nat) : Mbr :=
  let mbr_image_lbas := image_size_lbas
  let mbr_image_lbas := if mbr_image_lbas > 0xFFFFFFFF then 0x100000000 else mbr_image_lbas
  { boot_code := List.replicate 440 0
    mbr_signature := 0
    unknown := 0
    partition :=
      [ { boot_indicator := 0
          starting_chs := [0x00, 0x02, 0x00]
          os_type := 0xEE
          ending_chs := [0xFF, 0xFF, 0xFF]
          starting_lba := 0x00000001
          size_lba := sub64 mbr_image_lbas 1 % 4294967296 },
        Mbr_Partition.zero, Mbr_Partition.zero, Mbr_Partition.zero ]
    boot_signature := 0xAA55 }

/-- The function `write_mbr(image)`: builds `mbr` and writes its 512 bytes with
one `fwrite(&mbr, 1, sizeof mbr, image)`; returns `false` when fewer than
`sizeof mbr` items were written.  `stored` is the outcome of that `fwrite`. -/
def write_mbr (image_size_lbas : Nat) (stored : Nat) (image : List Nat) : Bool × List Nat :=
  let mbr := write_mbr.mbr image_size_lbas
  let r := fwrite mbr.bytes 1 512 stored image
  if r.1 ≠ 512 then (false, r.2) else (true, r.2)

/-! ## GPT builder (`write_gpt`) -/

/-- The local object `primary_gpt` of `write_gpt`, built from the global
`image_size_lbas` and the values returned by `rand()` inside `new_guid`. -/
def write_gpt.primary_gpt (image_size_lbas : Nat) (rand : Nat → Nat) : Gpt_Header :=
  { signature := "EFI PART".toList.map Char.toNat
    revision := 0x00010000
    header_size := 92
    header_crc32 := 0
    reserved_1 := 1
    my_lba := 1
    alternate_lba := sub64 image_size_lbas 1
    first_usable_lba := 1 + 1 + 32
    last_usable_lba := sub64 (sub64 (sub64 image_size_lbas 1) 32) 1
    disk_guid := new_guid rand
    partition_table_lba := 2
    number_of_entries := 128
    size_of_entires := 128
    partition_table_crc32 := 0
    reserved_2 := List.replicate (512 - 92) 0 }

/-- The function `write_gpt(image)`: it builds `primary_gpt`, writes nothing to
the stream and returns `true`. -/
def write_gpt (image_size_lbas : Nat) (rand : Nat → Nat) (image : List Nat) :
    Bool × List Nat :=
  let _primary_gpt := write_gpt.primary_gpt image_size_lbas rand
  (true, image)

/-! ## Sector padding (`write_full_lba_size`) -/

/-- The loop of `write_full_lba_size`, `fuel` bounding the number of times the
loop condition is evaluated (`none` when the fuel runs out before the loop is
left).  `i` is the `uint8_t` counter, compared with the 64-bit `bound` after
promotion and incremented modulo 256; `k` counts the `fwrite` calls made so
far and `stored k` is the outcome of the next one, whose return value the
function ignores.  Returns the number of `fwrite` calls and the image. -/
def write_full_lba_size.loop (bound : Nat) (zero_sector : List Nat) (stored : Nat → Nat) :
    Nat → Nat → Nat → List Nat → Option (Nat × List Nat)
  | 0, _, _, _ => none
  | fuel + 1, i, k, image =>
    if i < bound then
      write_full_lba_size.loop bound zero_sector stored fuel ((i + 1) % 256) (k + 1)
        (fwrite zero_sector 512 1 (stored k) image).2
    else some (k, image)

/-- The function `write_full_lba_size(image)`, with the global `lba_size`
passed in.  The bound `(lba_size - sizeof zero_sector) / sizeof zero_sector` is
computed in 64-bit unsigned arithmetic.  The local array `zero_sector` has no
initialiser, so its 512 bytes are a parameter. -/
def write_full_lba_size (lba_size : Nat) (zero_sector : List Nat) (stored : Nat → Nat)
    (fuel : Nat) (image : List Nat) : Option (Nat × List Nat) :=
  write_full_lba_size.loop (sub64 lba_size 512 / 512) zero_sector stored fuel 0 0 image

/-! ## Entry point (`main`) -/

/-- The value of the `<stdlib.h>` macro `EXIT_SUCCESS`. -/
def EXIT_SUCCESS : Nat := 0

/-- The value of the `<stdlib.h>` macro `EXIT_FAILURE`. -/
def EXIT_FAILURE : Nat := 1

/-- The global `image_size` as set by `main`:
`esp_size + data_size + (1024*1024)` in `uint64_t`. -/
def main.image_size (esp_size data_size : Nat) : Nat :=
  ((esp_size + data_size) % 18446744073709551616 + 1024 * 1024) % 18446744073709551616

/-- The global `image_size_lbas` as set by `main`: `bytes_to_lbas(image_size)`. -/
def main.image_size_lbas (lba_size esp_size data_size : Nat) : Nat :=
  bytes_to_lbas lba_size (main.image_size esp_size data_size)

/-- The function `main`, with the globals `lba_size`, `esp_size`, `data_size`
passed in.  `fopen_ok` tells whether `fopen(image_name, "wb+")` returned a
stream (then empty); `stored 0` is the outcome of the `fwrite` in `write_mbr`
and `stored (k + 1)` that of the `k`-th `fwrite` in `write_full_lba_size`;
`rand` gives the values of `rand()` after `srand(time(NULL))`.  Returns the
exit status and the bytes written to the image, or `none` when
`write_full_lba_size` does not return within `fuel` loop tests. -/
def main (fopen_ok : Bool) (lba_size esp_size data_size : Nat) (rand : Nat → Nat)
    (zero_sector : List Nat) (stored : Nat → Nat) (fuel : Nat) : Option (Nat × List Nat) :=
  if !fopen_ok then some (EXIT_FAILURE, [])
  else
    let image : List Nat := []
    let image_size_lbas := main.image_size_lbas lba_size esp_size data_size
    let r := write_mbr image_size_lbas (stored 0) image
    if !r.1 then some (EXIT_FAILURE, r.2)
    else
      let g := write_gpt image_size_lbas rand r.2
      if !g.1 then some (EXIT_FAILURE, g.2)
      else
        match write_full_lba_size lba_size zero_sector (fun k => stored (k + 1)) fuel g.2 with
        | none => none
        | some p => some (EXIT_SUCCESS, p.2)

/-! ## CRC32: the table-driven loop computes the bitwise definition -/

theorem crc32_ref_bit_xor (a b : Nat) :
    crc32_ref_bit (a ^^^ b) = crc32_ref_bit a ^^^ crc32_ref_bit b := by
  have hdiv : (a ^^^ b) / 2 = a / 2 ^^^ b / 2 := by
    apply Nat.eq_of_testBit_eq
    intro i
    simp [← Nat.shiftRight_one, Nat.testBit_shiftRight]
  have hmod : (a ^^^ b) % 2 = (a + b) % 2 := Nat.xor_mod_two_eq
  unfold crc32_ref_bit
  rw [hdiv]
  rcases Nat.mod_two_eq_zero_or_one a with ha | ha <;>
    rcases Nat.mod_two_eq_zero_or_one b with hb | hb
  · rw [if_neg (by omega), if_neg (by omega), if_neg (by omega)]
  · rw [if_pos (by omega), if_neg (by omega), if_pos (by omega), Nat.xor_assoc]
  · rw [if_pos (by omega), if_pos (by omega), if_neg (by omega), Nat.xor_assoc,
      Nat.xor_assoc, Nat.xor_comm crc32_poly]
  · rw [if_neg (by omega), if_pos (by omega), if_pos (by omega), Nat.xor_assoc,
      ← Nat.xor_assoc crc32_poly, Nat.xor_comm crc32_poly (b / 2),
      Nat.xor_assoc (b / 2), Nat.xor_self, Nat.xor_zero]

theorem crc32_ref_bit_iterate_xor (k a b : Nat) :
    crc32_ref_bit^[k] (a ^^^ b) = crc32_ref_bit^[k] a ^^^ crc32_ref_bit^[k] b := by
  induction k generalizing a b with
  | zero => rfl
  | succ k ih => simp only [Function.iterate_succ, Function.comp_apply, crc32_ref_bit_xor, ih]

theorem crc32_ref_bit_two_mul (m : Nat) : crc32_ref_bit (2 * m) = m := by
  unfold crc32_ref_bit
  have h : (2 * m) % 2 ≠ 1 := by omega
  rw [if_neg h]
  omega

theorem crc32_ref_bit_iterate_shift (k m : Nat) : crc32_ref_bit^[k] (2 ^ k * m) = m := by
  induction k with
  | zero => simp
  | succ k ih =>
    rw [Function.iterate_succ, Function.comp_apply, pow_succ, Nat.mul_comm (2 ^ k) 2,
      Nat.mul_assoc, crc32_ref_bit_two_mul, ih]

theorem split_low_byte (x : Nat) : x = (x % 2 ^ 8) ^^^ (2 ^ 8 * (x / 2 ^ 8)) := by
  apply Nat.eq_of_testBit_eq
  intro i
  rw [Nat.mul_comm, ← Nat.shiftLeft_eq, ← Nat.shiftRight_eq_div_pow]
  simp only [Nat.testBit_xor, Nat.testBit_mod_two_pow, Nat.testBit_shiftLeft,
    Nat.testBit_shiftRight]
  by_cases h : i < 8
  · simp [h, Nat.not_le.mpr h]
  · have h8 : 8 + (i - 8) = i := by omega
    simp [h, Nat.not_lt.mp h, h8]

theorem crc32_ref_bit_iterate_split (x : Nat) :
    crc32_ref_bit^[8] x = crc32_ref_bit^[8] (x % 256) ^^^ (x / 256) := by
  conv_lhs => rw [split_low_byte x]
  rw [crc32_ref_bit_iterate_xor, crc32_ref_bit_iterate_shift]
  norm_num

theorem crc32_ref_bit_lt (r : Nat) (h : r < 2 ^ 32) : crc32_ref_bit r < 2 ^ 32 := by
  unfold crc32_ref_bit
  have h2 : r / 2 < 2 ^ 32 := by omega
  split
  · exact Nat.xor_lt_two_pow h2 (by decide)
  · exact h2

theorem crc32_ref_bit_iterate_lt (k r : Nat) (h : r < 2 ^ 32) :
    crc32_ref_bit^[k] r < 2 ^ 32 := by
  induction k with
  | zero => exact h
  | succ k ih =>
    rw [Function.iterate_succ_apply']
    exact crc32_ref_bit_lt _ ih

theorem crc_table_step_eq (c : Nat) (h : c < 2 ^ 32) : crc_table_step c = crc32_ref_bit c := by
  have hx : (0xedb88320 ^^^ (c >>> 1)) < 4294967296 :=
    Nat.xor_lt_two_pow (n := 32) (by decide) (by rw [Nat.shiftRight_eq_div_pow]; omega)
  unfold crc_table_step crc32_ref_bit crc32_poly
  rw [Nat.and_one_is_mod, Nat.mod_eq_of_lt hx, Nat.shiftRight_eq_div_pow, Nat.xor_comm]
  by_cases h1 : c % 2 = 1
  · rw [if_pos (by omega), if_pos h1]
  · rw [if_neg (by omega), if_neg h1]

theorem crc_table_fold_eq (k c : Nat) (h : c < 2 ^ 32) :
    (List.range k).foldl (fun c _ => crc_table_step c) c = crc32_ref_bit^[k] c := by
  induction k with
  | zero => rfl
  | succ k ih =>
    rw [List.range_succ, List.foldl_append, ih, Function.iterate_succ_apply']
    exact crc_table_step_eq _ (crc32_ref_bit_iterate_lt k c h)

theorem crc_table_entry_eq (n : Nat) (h : n < 2 ^ 32) :
    crc_table_entry n = crc32_ref_bit^[8] n := by
  unfold crc_table_entry
  rw [Nat.mod_eq_of_lt (show n < 4294967296 from h)]
  exact crc_table_fold_eq 8 n h

theorem set_fold_eq (f : Nat → Nat) (k : Nat) (t : List Nat) (h : k ≤ t.length) :
    (List.range k).foldl (fun t n => t.set n (f n)) t = (List.range k).map f ++ t.drop k := by
  induction k with
  | zero => simp
  | succ k ih =>
    rw [List.range_succ, List.foldl_append, ih (by omega), List.map_append]
    simp only [List.foldl_cons, List.foldl_nil, List.map_cons, List.map_nil]
    rw [List.set_append_right _ _ (by simp), List.append_assoc]
    congr 1
    simp only [List.length_map, List.length_range, Nat.sub_self]
    have hk : k < t.length := by omega
    rw [List.drop_eq_getElem_cons hk]
    rfl

theorem create_crc32_table_eq (t : List Nat) (h : t.length = 256) :
    create_crc32_table t = (List.range 256).map crc_table_entry := by
  unfold create_crc32_table
  rw [set_fold_eq _ _ _ (by omega), List.drop_eq_nil_of_le (by omega), List.append_nil]

theorem create_crc32_table_getD (t : List Nat) (h : t.length = 256) (i : Nat) (hi : i < 256) :
    (create_crc32_table t).getD i 0 = crc32_ref_bit^[8] i := by
  rw [create_crc32_table_eq t h, List.getD_eq_getElem _ _ (by simpa using hi)]
  simp only [List.getElem_map, List.getElem_range]
  exact crc_table_entry_eq i (by omega)

theorem table_byte_eq (t : List Nat) (h : t.length = 256) (c b : Nat) (hb : b < 256) :
    (create_crc32_table t).getD ((c ^^^ b) &&& 0xFF) 0 ^^^ (c >>> 8) = crc32_ref_byte c b := by
  have hand : (c ^^^ b) &&& 0xFF = (c ^^^ b) % 256 :=
    Nat.and_pow_two_sub_one_eq_mod (c ^^^ b) 8
  have hhi : (c ^^^ b) / 256 = c / 256 := by
    have := Nat.shiftRight_eq_div_pow (c ^^^ b) 8
    have h2 : (c ^^^ b) >>> 8 = c >>> 8 := by
      apply Nat.eq_of_testBit_eq
      intro i
      have hbi : b.testBit (8 + i) = false :=
        Nat.testBit_lt_two_pow (lt_of_lt_of_le hb
          (Nat.pow_le_pow_right (show 2 > 0 by decide) (show 8 ≤ 8 + i by omega)))
      simp [Nat.testBit_shiftRight, hbi]
    rw [Nat.shiftRight_eq_div_pow, Nat.shiftRight_eq_div_pow] at h2
    exact h2
  unfold crc32_ref_byte
  rw [crc32_ref_bit_iterate_split (c ^^^ b), hhi, hand,
    create_crc32_table_getD t h _ (Nat.mod_lt _ (by decide)), Nat.shiftRight_eq_div_pow]

theorem crc32_ref_byte_lt (c b : Nat) (hc : c < 2 ^ 32) (hb : b < 256) :
    crc32_ref_byte c b < 2 ^ 32 :=
  crc32_ref_bit_iterate_lt 8 _ (Nat.xor_lt_two_pow hc (by omega))

theorem crc32_ref_fold_lt (l : List Nat) (hl : ∀ b ∈ l, b < 256) (c : Nat) (hc : c < 2 ^ 32) :
    l.foldl crc32_ref_byte c < 2 ^ 32 := by
  induction l generalizing c with
  | nil => exact hc
  | cons b l ih =>
    rw [List.foldl_cons]
    exact ih (fun x hx => hl x (List.mem_cons_of_mem _ hx)) _
      (crc32_ref_byte_lt c b hc (hl b (List.mem_cons_self _ _)))

theorem index_fold_eq {α : Type} (g : α → Nat → α) (l : List Nat) (k : Nat) (hk : k ≤ l.length)
    (init : α) :
    (List.range k).foldl (fun c n => g c (l.getD n 0)) init = (l.take k).foldl g init := by
  induction k with
  | zero => simp
  | succ k ih =>
    have hlt : k < l.length := by omega
    rw [List.range_succ, List.foldl_append, ih (by omega), List.take_succ, List.foldl_append]
    simp [List.getD_eq_getElem _ _ hlt, List.getElem?_eq_getElem hlt]

theorem calculate_crc32_take (crc_table buff : List Nat) (len : Nat)
    (htbl : crc_table.length = 256) (hbytes : ∀ b ∈ buff, b < 256) (hlen : len ≤ buff.length) :
    (calculate_crc32 crc_table buff (len : Int)).1 = crc32_ref (buff.take len) := by
  have hbody : (fun c n => (create_crc32_table crc_table).getD ((c ^^^ buff.getD n 0) &&& 0xFF) 0
      ^^^ (c >>> 8)) = (fun c n => crc32_ref_byte c (buff.getD n 0)) := by
    funext c n
    apply table_byte_eq crc_table htbl
    by_cases hn : n < buff.length
    · rw [List.getD_eq_getElem _ _ hn]
      exact hbytes _ (List.getElem_mem _)
    · rw [List.getD_eq_default _ _ (by omega)]
      decide
  have hlt : (buff.take len).foldl crc32_ref_byte 0xFFFFFFFF < 2 ^ 32 :=
    crc32_ref_fold_lt _ (fun b hb => hbytes b (List.mem_of_mem_take hb)) _ (by decide)
  simp only [calculate_crc32, Int.toNat_ofNat, hbody]
  rw [index_fold_eq crc32_ref_byte buff len hlen]
  unfold crc32_ref
  exact Nat.mod_eq_of_lt (Nat.xor_lt_two_pow hlt (by decide))

set_option maxRecDepth 100000 in
theorem crc32_ref_check_value :
    crc32_ref (("123456789".toList.map Char.toNat).take 9) = 0xCBF43926 := by
  decide

theorem crc_table_init_length : crc_table_init.length = 256 := by
  unfold crc_table_init
  exact List.length_replicate 256 0

/-- C1: for every content of `crc_table` and every byte sequence of length
less than 2^31, `calculate_crc32` called on the sequence and its length
returns the bit-by-bit reflected CRC-32 (polynomial 0xEDB88320, initial
register 0xFFFFFFFF, final XOR 0xFFFFFFFF) of the sequence. -/
theorem calculate_crc32_eq_reference (crc_table buff : List Nat)
    (htbl : crc_table.length = 256) (hbytes : ∀ b ∈ buff, b < 256)
    (_hlen : buff.length < 2 ^ 31) :
    (calculate_crc32 crc_table buff (buff.length : Int)).1 = crc32_ref buff := by
  have h := calculate_crc32_take crc_table buff buff.length htbl hbytes (Nat.le_refl _)
  rw [List.take_length] at h
  exact h

/-- Witness for C1 at the zero-initialised table and the two bytes `"12"`. -/
theorem calculate_crc32_eq_reference_witness :
    crc_table_init.length = 256 ∧ (∀ b ∈ [0x31, 0x32], b < 256) ∧
      [0x31, 0x32].length < 2 ^ 31 ∧
      (calculate_crc32 crc_table_init [0x31, 0x32] (([0x31, 0x32] : List Nat).length : Int)).1
        = crc32_ref [0x31, 0x32] :=
  ⟨crc_table_init_length, by decide, by decide,
    calculate_crc32_eq_reference crc_table_init [0x31, 0x32] crc_table_init_length
      (by decide) (by decide)⟩

/-- C2: the known-answer tests: on any 256-entry content of `crc_table`,
`calculate_crc32` returns 0x00000000 for the empty input with `len = 0` and
0xCBF43926 for the nine ASCII bytes of `"123456789"` with `len = 9`. -/
theorem calculate_crc32_known_answers (crc_table : List Nat) (htbl : crc_table.length = 256) :
    (calculate_crc32 crc_table [] 0).1 = 0x00000000 ∧
      (calculate_crc32 crc_table ("123456789".toList.map Char.toNat) 9).1 = 0xCBF43926 := by
  constructor
  · exact (calculate_crc32_take crc_table [] 0 htbl (by decide) (by decide)).trans (by decide)
  · exact (calculate_crc32_take crc_table _ 9 htbl (by decide) (by decide)).trans
      crc32_ref_check_value

/-- Witness for C2 at the zero-initialised table. -/
theorem calculate_crc32_known_answers_witness :
    crc_table_init.length = 256 ∧
      (calculate_crc32 crc_table_init [] 0).1 = 0x00000000 ∧
      (calculate_crc32 crc_table_init ("123456789".toList.map Char.toNat) 9).1 = 0xCBF43926 :=
  ⟨crc_table_init_length, calculate_crc32_known_answers crc_table_init crc_table_init_length⟩

/-! ## Size / LBA calculator -/

theorem bytes_to_lbas_no_wrap (lba_size bytes : Nat) (hl : 0 < lba_size)
    (hb : bytes < 2 ^ 64) :
    bytes_to_lbas lba_size bytes
      = bytes / lba_size + (if bytes % lba_size > 0 then 1 else 0) := by
  unfold bytes_to_lbas
  apply Nat.mod_eq_of_lt
  by_cases hr : bytes % lba_size > 0
  · have h2 : 2 ≤ lba_size := by
      have := Nat.mod_lt bytes hl
      omega
    have hq : bytes / lba_size ≤ bytes / 2 := Nat.div_le_div_left h2 (by decide)
    rw [if_pos hr]
    omega
  · have hq : bytes / lba_size ≤ bytes := Nat.div_le_self _ _
    rw [if_neg hr]
    omega

/-- C3: for every 64-bit `bytes` and every `lba_size > 0`, `bytes_to_lbas`
is the ceiling of `bytes / lba_size`: it is the least `n` with
`n * lba_size >= bytes`, and equals the rational ceiling; with
`lba_size = 512` it maps 0, 1, 512, 513 to 0, 1, 1, 2. -/
theorem bytes_to_lbas_ceiling (lba_size bytes : Nat) (hl : 0 < lba_size)
    (hb : bytes < 2 ^ 64) :
    IsLeast {n : Nat | n * lba_size ≥ bytes} (bytes_to_lbas lba_size bytes) ∧
      bytes_to_lbas lba_size bytes = ⌈(bytes : ℚ) / (lba_size : ℚ)⌉₊ ∧
      bytes_to_lbas 512 0 = 0 ∧ bytes_to_lbas 512 1 = 1 ∧
      bytes_to_lbas 512 512 = 1 ∧ bytes_to_lbas 512 513 = 2 := by
  have hdm : lba_size * (bytes / lba_size) + bytes % lba_size = bytes :=
    Nat.div_add_mod bytes lba_size
  have hr : bytes % lba_size < lba_size := Nat.mod_lt bytes hl
  have hup : bytes_to_lbas lba_size bytes * lba_size ≥ bytes := by
    rw [bytes_to_lbas_no_wrap lba_size bytes hl hb]
    by_cases h0 : bytes % lba_size > 0
    · rw [if_pos h0, Nat.add_mul, Nat.one_mul, Nat.mul_comm]
      omega
    · rw [if_neg h0, Nat.add_zero, Nat.mul_comm]
      omega
  have hmin : ∀ n, n * lba_size ≥ bytes → bytes_to_lbas lba_size bytes ≤ n := by
    intro n hn
    rw [bytes_to_lbas_no_wrap lba_size bytes hl hb]
    by_cases h0 : bytes % lba_size > 0
    · rw [if_pos h0]
      have hlt : lba_size * (bytes / lba_size) < lba_size * n := by
        rw [Nat.mul_comm lba_size n]
        omega
      have := Nat.lt_of_mul_lt_mul_left hlt
      omega
    · rw [if_neg h0, Nat.add_zero]
      exact Nat.div_le_of_le_mul (by rw [Nat.mul_comm]; exact hn)
  refine ⟨⟨hup, fun n hn => hmin n hn⟩, ?_, by decide, by decide, by decide, by decide⟩
  have hlq : (0 : ℚ) < (lba_size : ℚ) := by exact_mod_cast hl
  apply le_antisymm
  · apply hmin
    have h1 : (bytes : ℚ) / (lba_size : ℚ) ≤ (⌈(bytes : ℚ) / (lba_size : ℚ)⌉₊ : ℚ) :=
      Nat.le_ceil _
    rw [div_le_iff₀ hlq] at h1
    exact_mod_cast h1
  · apply Nat.ceil_le.mpr
    rw [div_le_iff₀ hlq]
    exact_mod_cast hup

/-- Witness for C3 at `lba_size = 4096`, `bytes = 4097`. -/
theorem bytes_to_lbas_ceiling_witness :
    0 < 4096 ∧ 4097 < 2 ^ 64 ∧ bytes_to_lbas 4096 4097 = 2 ∧
      IsLeast {n : Nat | n * 4096 ≥ 4097} (bytes_to_lbas 4096 4097) :=
  ⟨by decide, by decide, by decide,
    (bytes_to_lbas_ceiling 4096 4097 (by decide) (by decide)).1⟩

/-! ## Protective MBR -/

theorem write_mbr_size_lba (image_size_lbas : Nat) (h : 1 ≤ image_size_lbas) :
    sub64 (if image_size_lbas > 0xFFFFFFFF then 0x100000000 else image_size_lbas) 1
        % 4294967296 = min (image_size_lbas - 1) 0xFFFFFFFF := by
  unfold sub64
  by_cases hbig : image_size_lbas > 0xFFFFFFFF
  · rw [if_pos hbig]
    omega
  · rw [if_neg hbig]
    omega

/-- C4: for every `image_size_lbas >= 1`, partition record 0 of the MBR built
by `write_mbr` has `os_type = 0xEE`, `starting_lba = 1` and
`size_lba = min(image_size_lbas - 1, 0xFFFFFFFF)`, and the MBR has
`boot_signature = 0xAA55`. -/
theorem write_mbr_protective_record (image_size_lbas : Nat) (h : 1 ≤ image_size_lbas) :
    ((write_mbr.mbr image_size_lbas).partition.map Mbr_Partition.os_type).head? = some 0xEE ∧
      ((write_mbr.mbr image_size_lbas).partition.map Mbr_Partition.starting_lba).head?
        = some 1 ∧
      ((write_mbr.mbr image_size_lbas).partition.map Mbr_Partition.size_lba).head?
        = some (min (image_size_lbas - 1) 0xFFFFFFFF) ∧
      (write_mbr.mbr image_size_lbas).boot_signature = 0xAA55 := by
  refine ⟨rfl, rfl, ?_, rfl⟩
  simp only [write_mbr.mbr, List.map_cons, List.head?_cons]
  rw [write_mbr_size_lba image_size_lbas h]

/-- Witness for C4 at the default image size of 71680 sectors. -/
theorem write_mbr_protective_record_witness :
    1 ≤ 71680 ∧
      ((write_mbr.mbr 71680).partition.map Mbr_Partition.size_lba).head? = some 71679 :=
  ⟨by decide, (write_mbr_protective_record 71680 (by decide)).2.2.1⟩

theorem le_bytes_two (v : Nat) : le_bytes 2 v = [v % 256, v / 256 % 256] := by
  simp [le_bytes, List.range_succ]

theorem le_bytes_four (v : Nat) :
    le_bytes 4 v = [v % 256, v / 256 % 256, v / 65536 % 256, v / 16777216 % 256] := by
  simp [le_bytes, List.range_succ]

theorem replicate_446_zero :
    List.replicate 446 (0 : Nat) = List.replicate 440 0 ++ [0, 0, 0, 0, 0, 0] := by
  rw [show (446 : Nat) = 440 + 6 from rfl, List.replicate_add]
  rfl

theorem replicate_48_zero :
    List.replicate 48 (0 : Nat)
      = [0, 0, 0, 0, 0, 0, 0, 0, 0, 0, 0, 0, 0, 0, 0, 0] ++
        [0, 0, 0, 0, 0, 0, 0, 0, 0, 0, 0, 0, 0, 0, 0, 0] ++
        [0, 0, 0, 0, 0, 0, 0, 0, 0, 0, 0, 0, 0, 0, 0, 0] := by
  rfl

theorem mbr_bytes_layout (s : Nat) :
    List.replicate 440 0 ++ [0, 0, 0, 0] ++ [0, 0] ++
        ([[0] ++ [0x00, 0x02, 0x00] ++ [0xEE] ++ [0xFF, 0xFF, 0xFF] ++ [1, 0, 0, 0] ++
            [s % 256, s / 256 % 256, s / 65536 % 256, s / 16777216 % 256],
          [0] ++ [0, 0, 0] ++ [0] ++ [0, 0, 0] ++ [0, 0, 0, 0] ++ [0, 0, 0, 0],
          [0] ++ [0, 0, 0] ++ [0] ++ [0, 0, 0] ++ [0, 0, 0, 0] ++ [0, 0, 0, 0],
          [0] ++ [0, 0, 0] ++ [0] ++ [0, 0, 0] ++ [0, 0, 0, 0] ++ [0, 0, 0, 0]] :
          List (List Nat)).flatten ++ [0x55, 0xAA]
      = List.replicate 446 0 ++
        ([0x00, 0x00, 0x02, 0x00, 0xEE, 0xFF, 0xFF, 0xFF] ++ [0x01, 0x00, 0x00, 0x00] ++
          [s % 256, s / 256 % 256, s / 65536 % 256, s / 16777216 % 256]) ++
        List.replicate 48 0 ++ [0x55, 0xAA] := by
  rw [replicate_446_zero, replicate_48_zero]
  simp only [List.flatten, List.append_assoc, List.cons_append, List.nil_append, List.append_nil]

theorem write_mbr_bytes_eq (image_size_lbas : Nat) :
    (write_mbr.mbr image_size_lbas).bytes =
        List.replicate 446 0 ++
        ([0x00, 0x00, 0x02, 0x00, 0xEE, 0xFF, 0xFF, 0xFF] ++ [0x01, 0x00, 0x00, 0x00] ++
          [sub64 (if image_size_lbas > 0xFFFFFFFF then 0x100000000 else image_size_lbas) 1
              % 4294967296 % 256,
           sub64 (if image_size_lbas > 0xFFFFFFFF then 0x100000000 else image_size_lbas) 1
              % 4294967296 / 256 % 256,
           sub64 (if image_size_lbas > 0xFFFFFFFF then 0x100000000 else image_size_lbas) 1
              % 4294967296 / 65536 % 256,
           sub64 (if image_size_lbas > 0xFFFFFFFF then 0x100000000 else image_size_lbas) 1
              % 4294967296 / 16777216 % 256]) ++
        List.replicate 48 0 ++ [0x55, 0xAA] := by
  simp only [write_mbr.mbr, Mbr.bytes, Mbr_Partition.bytes, Mbr_Partition.zero, List.map_cons,
    List.map_nil, le_bytes_four, le_bytes_two]
  generalize sub64 (if image_size_lbas > 4294967295 then 4294967296 else image_size_lbas) 1
    % 4294967296 = s
  simp only [Nat.zero_div, Nat.zero_mod, Nat.reduceMod, Nat.reduceDiv]
  exact mbr_bytes_layout s

theorem write_mbr_bytes_length (image_size_lbas : Nat) :
    (write_mbr.mbr image_size_lbas).bytes.length = 512 := by
  rw [write_mbr_bytes_eq]
  simp only [List.length_append, List.length_replicate, List.length_cons, List.length_nil]

/-- C5: for every `image_size_lbas`, the MBR that `write_mbr` serialises is
exactly 512 bytes: offsets 0..445 (boot code, disk signature, reserved field)
are zero, offsets 446..461 hold partition record 0 with its 32-bit fields
little-endian (`starting_lba = 1` as 01 00 00 00, then the four bytes of its
`size_lba`, least significant first), offsets 462..509 (records 1-3) are zero,
and offsets 510, 511 are 0x55, 0xAA; a complete `fwrite` appends exactly these
bytes to the image. -/
theorem write_mbr_serialised (image_size_lbas : Nat) (image : List Nat) :
    ∃ s : Nat,
      ((write_mbr.mbr image_size_lbas).partition.map Mbr_Partition.size_lba).head? = some s ∧
      (write_mbr.mbr image_size_lbas).bytes =
        List.replicate 446 0 ++
        ([0x00, 0x00, 0x02, 0x00, 0xEE, 0xFF, 0xFF, 0xFF] ++ [0x01, 0x00, 0x00, 0x00] ++
          [s % 256, s / 256 % 256, s / 65536 % 256, s / 16777216 % 256]) ++
        List.replicate 48 0 ++ [0x55, 0xAA] ∧
      (write_mbr.mbr image_size_lbas).bytes.length = 512 ∧
      write_mbr image_size_lbas 512 image
        = (true, image ++ (write_mbr.mbr image_size_lbas).bytes) := by
  refine ⟨_, ?_, write_mbr_bytes_eq image_size_lbas, write_mbr_bytes_length image_size_lbas, ?_⟩
  · simp only [write_mbr.mbr, List.map_cons, List.head?_cons]
  · have hlen := write_mbr_bytes_length image_size_lbas
    simp only [write_mbr, fwrite, Nat.mul_one, Nat.one_mul, Nat.min_self, Nat.div_one, ne_eq,
      not_true_eq_false, if_false]
    rw [← hlen, List.take_length]

/-! ## GUID generator -/

theorem testBit_and_int_not (x k i : Nat) :
    (x &&& int_not (1 <<< k)).testBit i
      = (x.testBit i && (decide (i < 32) != decide (k = i))) := by
  have h32 : (0xFFFFFFFF : Nat) = 2 ^ 32 - 1 := by decide
  unfold int_not
  rw [Nat.testBit_and, Nat.testBit_xor, h32, Nat.testBit_two_pow_sub_one, Nat.one_shiftLeft,
    Nat.testBit_two_pow]

theorem testBit_or_bit (x k i : Nat) :
    (x ||| 1 <<< k).testBit i = (x.testBit i || decide (k = i)) := by
  rw [Nat.testBit_or, Nat.one_shiftLeft, Nat.testBit_two_pow]

theorem version_bits_testBit (t i : Nat) :
    (((((t &&& int_not (1 <<< 15)) % 65536 ||| 1 <<< 14) % 65536
        &&& int_not (1 <<< 13)) % 65536 &&& int_not (1 <<< 12)) % 65536).testBit i
      = (decide (i = 14) || (decide (i < 12) && t.testBit i)) := by
  have h16 : (65536 : Nat) = 2 ^ 16 := by decide
  simp only [h16, Nat.testBit_mod_two_pow, testBit_and_int_not, testBit_or_bit]
  by_cases h14 : i = 14
  · subst h14
    simp
  · by_cases h12 : i < 12
    · have e1 : ¬ (15 = i) := by omega
      have e2 : ¬ (14 = i) := by omega
      have e3 : ¬ (13 = i) := by omega
      have e4 : ¬ (12 = i) := by omega
      have e5 : i < 16 := by omega
      have e6 : i < 32 := by omega
      simp [h14, h12, e1, e2, e3, e4, e5, e6]
    · have e2 : ¬ (14 = i) := by omega
      by_cases h16' : i < 16
      · have : i = 12 ∨ i = 13 ∨ i = 15 := by omega
        rcases this with rfl | rfl | rfl <;> simp
      · simp [h14, h12, h16']

theorem variant_bits_testBit (s i : Nat) :
    ((((s ||| 1 <<< 7) % 256 ||| 1 <<< 6) % 256 &&& int_not (1 <<< 5)) % 256).testBit i
      = (decide (i = 6) || decide (i = 7) || (decide (i < 5) && s.testBit i)) := by
  have h8 : (256 : Nat) = 2 ^ 8 := by decide
  simp only [h8, Nat.testBit_mod_two_pow, testBit_and_int_not, testBit_or_bit]
  by_cases h5 : i < 5
  · have e1 : ¬ (7 = i) := by omega
    have e2 : ¬ (6 = i) := by omega
    have e3 : ¬ (5 = i) := by omega
    have e4 : ¬ (i = 6) := by omega
    have e5 : ¬ (i = 7) := by omega
    have e6 : i < 8 := by omega
    have e7 : i < 32 := by omega
    simp [h5, e1, e2, e3, e4, e5, e6, e7]
  · by_cases h8' : i < 8
    · have : i = 5 ∨ i = 6 ∨ i = 7 := by omega
      rcases this with rfl | rfl | rfl <;> simp
    · have e4 : ¬ (i = 6) := by omega
      have e5 : ¬ (i = 7) := by omega
      simp [h5, h8', e4, e5]

theorem version_bits_value (t : Nat) :
    ((((t &&& int_not (1 <<< 15)) % 65536 ||| 1 <<< 14) % 65536
        &&& int_not (1 <<< 13)) % 65536 &&& int_not (1 <<< 12)) % 65536
      = 16384 + t % 4096 := by
  have hb : t % 2 ^ 12 < 2 ^ 14 := lt_of_lt_of_le (Nat.mod_lt _ (by decide)) (by decide)
  have h : 16384 + t % 4096 = 2 ^ 14 * 1 ||| t % 2 ^ 12 := by
    rw [← Nat.mul_add_lt_is_or hb 1]
    norm_num
  rw [h]
  apply Nat.eq_of_testBit_eq
  intro i
  rw [version_bits_testBit, Nat.testBit_or, Nat.mul_one, Nat.testBit_two_pow,
    Nat.testBit_mod_two_pow]
  by_cases h14 : i = 14
  · subst h14; simp
  · have : ¬ (14 = i) := by omega
    simp [h14, this]

theorem variant_bits_value (s : Nat) :
    (((s ||| 1 <<< 7) % 256 ||| 1 <<< 6) % 256 &&& int_not (1 <<< 5)) % 256
      = 192 + s % 32 := by
  have hb : s % 2 ^ 5 < 2 ^ 6 := lt_of_lt_of_le (Nat.mod_lt _ (by decide)) (by decide)
  have h : 192 + s % 32 = 2 ^ 6 * 3 ||| s % 2 ^ 5 := by
    rw [← Nat.mul_add_lt_is_or hb 3]
    norm_num
  have h3 : ∀ i, (2 ^ 6 * 3).testBit i = (decide (i = 6) || decide (i = 7)) := by
    intro i
    have e : 2 ^ 6 * 3 = 2 ^ 6 * 1 ||| 2 ^ 7 := by decide
    rw [e, Nat.testBit_or, Nat.mul_one, Nat.testBit_two_pow, Nat.testBit_two_pow]
    by_cases h6 : i = 6 <;> by_cases h7 : i = 7 <;> simp [h6, h7, eq_comm]
  rw [h]
  apply Nat.eq_of_testBit_eq
  intro i
  rw [variant_bits_testBit, Nat.testBit_or, h3, Nat.testBit_mod_two_pow]

theorem new_guid_rand_arr_eq (rand : Nat → Nat) :
    new_guid.rand_arr rand
      = [rand 0 % 256, rand 1 % 256, rand 2 % 256, rand 3 % 256, rand 4 % 256, rand 5 % 256,
         rand 6 % 256, rand 7 % 256, rand 8 % 256, rand 9 % 256, rand 10 % 256, rand 11 % 256,
         rand 12 % 256, rand 13 % 256, rand 14 % 256, rand 15 % 256] := by
  simp [new_guid.rand_arr, List.range_succ]

theorem new_guid_eq (rand : Nat → Nat) :
    new_guid rand =
      { time_lo := rand 0 % 256 + 256 * (rand 1 % 256 + 256 * (rand 2 % 256
          + 256 * (rand 3 % 256)))
        time_mid := rand 4 % 256 + 256 * (rand 5 % 256)
        time_hi_and_ver := 16384 + (rand 6 % 256 + 256 * (rand 7 % 256)) % 4096
        clock_seq_hi_and_res := 192 + rand 8 % 256 % 32
        clock_seq_lo := rand 9 % 256
        node := [rand 10 % 256, rand 11 % 256, rand 12 % 256, rand 13 % 256, rand 14 % 256,
                 rand 15 % 256] } := by
  simp only [new_guid, new_guid_rand_arr_eq, version_bits_value, variant_bits_value, le_value,
    List.drop_zero, List.take, List.drop, List.foldr, List.getD_cons_zero, List.getD_cons_succ,
    Nat.mul_zero, Nat.add_zero]

/-- C6: for every outcome of the sixteen calls of `rand()`, the GUID returned
by `new_guid` has version 4: `(time_hi_and_ver >> 12) & 0xF == 4`. -/
theorem new_guid_version (rand : Nat → Nat) :
    ((new_guid rand).time_hi_and_ver >>> 12) &&& 0xF = 4 := by
  rw [new_guid_eq, Nat.shiftRight_eq_div_pow]
  have h : ∀ x : Nat, x &&& 0xF = x % 2 ^ 4 := fun x => Nat.and_pow_two_sub_one_eq_mod x 4
  rw [h]
  simp only []
  omega

/-- C7, as stated, fails: when every call of `rand()` returns 0 the returned
GUID has `(clock_seq_hi_and_res >> 6) & 0x3 == 3`, not 2, and bit 6 is set. -/
theorem new_guid_variant_counterexample :
    ((new_guid (fun _ => 0)).clock_seq_hi_and_res >>> 6) &&& 0x3 ≠ 2 ∧
      (new_guid (fun _ => 0)).clock_seq_hi_and_res.testBit 6 = true := by
  decide

/-- C7, amended: for every outcome of the sixteen calls of `rand()`, the top
three bits of `clock_seq_hi_and_res` are `110`: bit 7 and bit 6 are set and
bit 5 is clear, so `(clock_seq_hi_and_res >> 5) & 0x7 == 6` and
`(clock_seq_hi_and_res >> 6) & 0x3 == 3`. -/
theorem new_guid_variant (rand : Nat → Nat) :
    ((new_guid rand).clock_seq_hi_and_res >>> 5) &&& 0x7 = 6 ∧
      ((new_guid rand).clock_seq_hi_and_res >>> 6) &&& 0x3 = 3 ∧
      (new_guid rand).clock_seq_hi_and_res.testBit 7 = true ∧
      (new_guid rand).clock_seq_hi_and_res.testBit 6 = true ∧
      (new_guid rand).clock_seq_hi_and_res.testBit 5 = false := by
  have h7 : ∀ x : Nat, x &&& 0x7 = x % 2 ^ 3 := fun x => Nat.and_pow_two_sub_one_eq_mod x 3
  have h3 : ∀ x : Nat, x &&& 0x3 = x % 2 ^ 2 := fun x => Nat.and_pow_two_sub_one_eq_mod x 2
  have hv : (new_guid rand).clock_seq_hi_and_res
      = (((rand 8 % 256 ||| 1 <<< 7) % 256 ||| 1 <<< 6) % 256 &&& int_not (1 <<< 5)) % 256 := by
    rw [new_guid_eq, variant_bits_value]
  refine ⟨?_, ?_, ?_, ?_, ?_⟩
  · rw [new_guid_eq, Nat.shiftRight_eq_div_pow, h7]
    simp only []
    omega
  · rw [new_guid_eq, Nat.shiftRight_eq_div_pow, h3]
    simp only []
    omega
  · rw [hv, variant_bits_testBit]
    simp
  · rw [hv, variant_bits_testBit]
    simp
  · rw [hv, variant_bits_testBit]
    simp

/-- C8, as stated, fails: when every call of `rand()` returns 0x20, bit 5 of
`r[8]` is set but bit 5 of the returned `clock_seq_hi_and_res` is clear,
although bit 5 is neither of the bits 6-7. -/
theorem new_guid_frame_counterexample :
    ((new_guid.rand_arr (fun _ => 0x20)).getD 8 0).testBit 5 = true ∧
      (new_guid (fun _ => 0x20)).clock_seq_hi_and_res.testBit 5 = false := by
  decide

/-- C8, amended: `new_guid` forces only bits 12-15 of `time_hi_and_ver` and
bits 5-7 of `clock_seq_hi_and_res`.  With `r[k] = rand() % 256` the `k`-th
random byte: `time_lo`, `time_mid` are `r[0..3]`, `r[4..5]` assembled
little-endian, every bit `i` of `time_hi_and_ver` other than 12-15 equals bit
`i` of `r[6..7]` assembled little-endian, every bit `j` of
`clock_seq_hi_and_res` other than 5-7 equals bit `j` of `r[8]`,
`clock_seq_lo = r[9]` and `node = r[10..15]`. -/
theorem new_guid_frame (rand : Nat → Nat) (i j : Nat) (hi : i ∉ [12, 13, 14, 15])
    (hj : j ∉ [5, 6, 7]) :
    (new_guid rand).time_lo
        = rand 0 % 256 + 256 * (rand 1 % 256) + 65536 * (rand 2 % 256)
          + 16777216 * (rand 3 % 256) ∧
      (new_guid rand).time_mid = rand 4 % 256 + 256 * (rand 5 % 256) ∧
      (new_guid rand).time_hi_and_ver.testBit i
        = (rand 6 % 256 + 256 * (rand 7 % 256)).testBit i ∧
      (new_guid rand).clock_seq_hi_and_res.testBit j = (rand 8 % 256).testBit j ∧
      (new_guid rand).clock_seq_lo = rand 9 % 256 ∧
      (new_guid rand).node
        = [rand 10 % 256, rand 11 % 256, rand 12 % 256, rand 13 % 256, rand 14 % 256,
           rand 15 % 256] := by
  have ht : (new_guid rand).time_hi_and_ver
      = ((((( rand 6 % 256 + 256 * (rand 7 % 256)) &&& int_not (1 <<< 15)) % 65536
          ||| 1 <<< 14) % 65536 &&& int_not (1 <<< 13)) % 65536
          &&& int_not (1 <<< 12)) % 65536 := by
    rw [new_guid_eq, version_bits_value]
  have hv : (new_guid rand).clock_seq_hi_and_res
      = (((rand 8 % 256 ||| 1 <<< 7) % 256 ||| 1 <<< 6) % 256 &&& int_not (1 <<< 5)) % 256 := by
    rw [new_guid_eq, variant_bits_value]
  simp only [List.mem_cons, List.mem_singleton, List.not_mem_nil, or_false, not_or] at hi hj
  refine ⟨?_, ?_, ?_, ?_, ?_, ?_⟩
  · rw [new_guid_eq]
    simp only []
    omega
  · rw [new_guid_eq]
  · rw [ht, version_bits_testBit]
    by_cases h12 : i < 12
    · simp [h12, hi.2.2.1]
    · have h16 : 2 ^ 16 ≤ 2 ^ i := Nat.pow_le_pow_right (by decide) (by omega)
      have hlt : rand 6 % 256 + 256 * (rand 7 % 256) < 2 ^ i := by omega
      rw [Nat.testBit_lt_two_pow hlt]
      simp [h12, hi.2.2.1]
  · rw [hv, variant_bits_testBit]
    by_cases h5 : j < 5
    · simp [h5, hj.2.1, hj.2.2]
    · have h8 : 2 ^ 8 ≤ 2 ^ j := Nat.pow_le_pow_right (by decide) (by omega)
      have hlt : rand 8 % 256 < 2 ^ j := by omega
      rw [Nat.testBit_lt_two_pow hlt]
      simp [h5, hj.2.1, hj.2.2]
  · rw [new_guid_eq]
  · rw [new_guid_eq]

/-- Witness for C8 (amended) at `rand() = 0xFF` throughout, bit 0 of
`time_hi_and_ver` and bit 4 of `clock_seq_hi_and_res`. -/
theorem new_guid_frame_witness :
    (0 ∉ [12, 13, 14, 15]) ∧ (4 ∉ [5, 6, 7]) ∧
      (new_guid (fun _ => 0xFF)).time_hi_and_ver.testBit 0
        = (0xFF % 256 + 256 * (0xFF % 256)).testBit 0 ∧
      (new_guid (fun _ => 0xFF)).clock_seq_hi_and_res.testBit 4 = (0xFF % 256).testBit 4 :=
  ⟨by decide, by decide,
    (new_guid_frame (fun _ => 0xFF) 0 4 (by decide) (by decide)).2.2.1,
    (new_guid_frame (fun _ => 0xFF) 0 4 (by decide) (by decide)).2.2.2.1⟩

/-! ## Primary GPT header -/

theorem sub64_of_le (a b : Nat) (hb : b ≤ a) (ha : a < 2 ^ 64) : sub64 a b = a - b := by
  unfold sub64
  omega

/-- C9: for every 64-bit `image_size_lbas >= 67`, the primary GPT header built
by `write_gpt` has signature `"EFI PART"`, revision 0x00010000, header size
92, `my_lba = 1`, `alternate_lba = image_size_lbas - 1`,
`first_usable_lba = 34`, `last_usable_lba = image_size_lbas - 34`,
`partition_table_lba = 2`, 128 entries of size 128 and 420 zero padding
bytes; exactly 32 sectors lie strictly between the header and
`first_usable_lba`, and exactly 32 strictly between `last_usable_lba` and
`alternate_lba`. -/
theorem write_gpt_primary_header (image_size_lbas : Nat) (rand : Nat → Nat)
    (h67 : 67 ≤ image_size_lbas) (h64 : image_size_lbas < 2 ^ 64) :
    (write_gpt.primary_gpt image_size_lbas rand).signature
        = [0x45, 0x46, 0x49, 0x20, 0x50, 0x41, 0x52, 0x54] ∧
      (write_gpt.primary_gpt image_size_lbas rand).revision = 0x00010000 ∧
      (write_gpt.primary_gpt image_size_lbas rand).header_size = 92 ∧
      (write_gpt.primary_gpt image_size_lbas rand).my_lba = 1 ∧
      (write_gpt.primary_gpt image_size_lbas rand).alternate_lba = image_size_lbas - 1 ∧
      (write_gpt.primary_gpt image_size_lbas rand).first_usable_lba = 34 ∧
      (write_gpt.primary_gpt image_size_lbas rand).last_usable_lba = image_size_lbas - 34 ∧
      (write_gpt.primary_gpt image_size_lbas rand).partition_table_lba = 2 ∧
      (write_gpt.primary_gpt image_size_lbas rand).number_of_entries = 128 ∧
      (write_gpt.primary_gpt image_size_lbas rand).size_of_entires = 128 ∧
      (write_gpt.primary_gpt image_size_lbas rand).reserved_2 = List.replicate 420 0 ∧
      (write_gpt.primary_gpt image_size_lbas rand).first_usable_lba
        - (write_gpt.primary_gpt image_size_lbas rand).my_lba - 1 = 32 ∧
      (write_gpt.primary_gpt image_size_lbas rand).alternate_lba
        - (write_gpt.primary_gpt image_size_lbas rand).last_usable_lba - 1 = 32 := by
  have ha : (write_gpt.primary_gpt image_size_lbas rand).alternate_lba
      = image_size_lbas - 1 := by
    simp only [write_gpt.primary_gpt]
    exact sub64_of_le _ _ (by omega) h64
  have hl : (write_gpt.primary_gpt image_size_lbas rand).last_usable_lba
      = image_size_lbas - 34 := by
    simp only [write_gpt.primary_gpt]
    rw [sub64_of_le image_size_lbas 1 (by omega) h64,
      sub64_of_le (image_size_lbas - 1) 32 (by omega) (by omega),
      sub64_of_le (image_size_lbas - 1 - 32) 1 (by omega) (by omega)]
    omega
  have hf : (write_gpt.primary_gpt image_size_lbas rand).first_usable_lba = 34 := by
    simp only [write_gpt.primary_gpt]
  have hm : (write_gpt.primary_gpt image_size_lbas rand).my_lba = 1 := by
    simp only [write_gpt.primary_gpt]
  have hs : "EFI PART".toList.map Char.toNat
      = [0x45, 0x46, 0x49, 0x20, 0x50, 0x41, 0x52, 0x54] := by
    decide
  refine ⟨?_, ?_, ?_, hm, ha, hf, hl, ?_, ?_, ?_, ?_, ?_, ?_⟩
  · simp only [write_gpt.primary_gpt, hs]
  · simp only [write_gpt.primary_gpt]
  · simp only [write_gpt.primary_gpt]
  · simp only [write_gpt.primary_gpt]
  · simp only [write_gpt.primary_gpt]
  · simp only [write_gpt.primary_gpt]
  · simp only [write_gpt.primary_gpt]
  · rw [hf, hm]
  · rw [ha, hl]
    omega

/-- Witness for C9 at the default image size of 71680 sectors. -/
theorem write_gpt_primary_header_witness :
    67 ≤ 71680 ∧ 71680 < 2 ^ 64 ∧
      (write_gpt.primary_gpt 71680 (fun _ => 0)).alternate_lba = 71680 - 1 ∧
      (write_gpt.primary_gpt 71680 (fun _ => 0)).last_usable_lba = 71680 - 34 :=
  ⟨by decide, by decide,
    (write_gpt_primary_header 71680 (fun _ => 0) (by decide) (by decide)).2.2.2.2.1,
    (write_gpt_primary_header 71680 (fun _ => 0) (by decide) (by decide)).2.2.2.2.2.2.1⟩

/-- C10 (evaluation of the code): for every `image_size_lbas` and every
generated disk GUID, the reserved field `reserved_1` of the primary GPT header
built by `write_gpt` is 1, not 0, and header bytes 20..23 are 01 00 00 00. -/
theorem write_gpt_reserved_1 (image_size_lbas : Nat) (rand : Nat → Nat) :
    (write_gpt.primary_gpt image_size_lbas rand).reserved_1 = 1 ∧
      (write_gpt.primary_gpt image_size_lbas rand).reserved_1 ≠ 0 ∧
      ((write_gpt.primary_gpt image_size_lbas rand).bytes.drop 20).take 4 = [1, 0, 0, 0] := by
  have hs : "EFI PART".toList.map Char.toNat
      = [0x45, 0x46, 0x49, 0x20, 0x50, 0x41, 0x52, 0x54] := by
    decide
  refine ⟨?_, ?_, ?_⟩
  · simp only [write_gpt.primary_gpt]
  · simp only [write_gpt.primary_gpt]
    decide
  · simp only [write_gpt.primary_gpt, Gpt_Header.bytes, hs, le_bytes_four, Nat.reduceMod,
      Nat.reduceDiv, List.append_assoc, List.cons_append, List.nil_append, List.drop_succ_cons,
      List.drop_zero, List.take_succ_cons, List.take_zero]

/-! ## The reserve added by `main` -/

/-- C16: at `lba_size = 512`, for every `esp_size` and `data_size` whose sum
plus 1 MiB does not overflow 64 bits, the `image_size_lbas` computed by `main`
is at least `1 + 1 + 32 + esp_lbas + data_lbas + 32 + 1`; equivalently the two
partitions laid out from LBA 34 end at or before
`last_usable_lba = image_size_lbas - 34`. -/
theorem main_reserve_sufficient (esp_size data_size : Nat) (rand : Nat → Nat)
    (h : esp_size + data_size + 1024 * 1024 < 2 ^ 64) :
    main.image_size_lbas 512 esp_size data_size
        ≥ 1 + 1 + 32 + bytes_to_lbas 512 esp_size + bytes_to_lbas 512 data_size + 32 + 1 ∧
      (write_gpt.primary_gpt (main.image_size_lbas 512 esp_size data_size) rand).last_usable_lba
        = main.image_size_lbas 512 esp_size data_size - 34 ∧
      34 + bytes_to_lbas 512 esp_size + bytes_to_lbas 512 data_size - 1
        ≤ (write_gpt.primary_gpt (main.image_size_lbas 512 esp_size
            data_size) rand).last_usable_lba := by
  have hsz : main.image_size esp_size data_size = esp_size + data_size + 1048576 := by
    unfold main.image_size
    omega
  have hi : main.image_size_lbas 512 esp_size data_size
      = (esp_size + data_size + 1048576) / 512
        + (if (esp_size + data_size + 1048576) % 512 > 0 then 1 else 0) := by
    unfold main.image_size_lbas
    rw [hsz]
    exact bytes_to_lbas_no_wrap 512 _ (by decide) (by omega)
  have he := bytes_to_lbas_no_wrap 512 esp_size (by decide) (by omega)
  have hd := bytes_to_lbas_no_wrap 512 data_size (by decide) (by omega)
  have hge : main.image_size_lbas 512 esp_size data_size
      ≥ 67 + bytes_to_lbas 512 esp_size + bytes_to_lbas 512 data_size := by
    rw [hi, he, hd]
    split_ifs <;> omega
  have hlt : main.image_size_lbas 512 esp_size data_size < 2 ^ 64 := by
    rw [hi]
    split_ifs <;> omega
  have hl : (write_gpt.primary_gpt (main.image_size_lbas 512 esp_size
      data_size) rand).last_usable_lba = main.image_size_lbas 512 esp_size data_size - 34 := by
    simp only [write_gpt.primary_gpt]
    rw [sub64_of_le _ 1 (by omega) hlt, sub64_of_le _ 32 (by omega) (by omega),
      sub64_of_le _ 1 (by omega) (by omega)]
    omega
  refine ⟨by omega, hl, ?_⟩
  rw [hl]
  omega

/-- Witness for C16 at the default sizes (33 MiB and 1 MiB). -/
theorem main_reserve_sufficient_witness :
    34603008 + 1048576 + 1024 * 1024 < 2 ^ 64 ∧
      main.image_size_lbas 512 34603008 1048576
        ≥ 1 + 1 + 32 + bytes_to_lbas 512 34603008 + bytes_to_lbas 512 1048576 + 32 + 1 :=
  ⟨by decide, (main_reserve_sufficient 34603008 1048576 (fun _ => 0) (by decide)).1⟩

/-! ## CRC32 does not depend on the prior table -/

/-- C17: `calculate_crc32` is a function of its input bytes only: for every
buffer and `len`, any two prior contents of the 256-entry `crc_table` (the
zero-initialised one, or one left by an earlier call) give the same result
and leave the same table, which holds the 256 canonical entries;
`create_crc32_table` is idempotent. -/
theorem calculate_crc32_pure (t1 t2 buff : List Nat) (len : Int)
    (h1 : t1.length = 256) (h2 : t2.length = 256) :
    calculate_crc32 t1 buff len = calculate_crc32 t2 buff len ∧
      (calculate_crc32 t1 buff len).2 = (List.range 256).map crc_table_entry ∧
      (calculate_crc32 t1 buff len).2 = create_crc32_table crc_table_init ∧
      ((calculate_crc32 t1 buff len).2).length = 256 ∧
      calculate_crc32 (calculate_crc32 t1 buff len).2 buff len = calculate_crc32 t1 buff len ∧
      create_crc32_table (create_crc32_table t1) = create_crc32_table t1 := by
  have hc1 := create_crc32_table_eq t1 h1
  have hc2 := create_crc32_table_eq t2 h2
  have hci := create_crc32_table_eq crc_table_init crc_table_init_length
  have hlen : ((List.range 256).map crc_table_entry).length = 256 := by
    rw [List.length_map, List.length_range]
  have hcc := create_crc32_table_eq _ hlen
  refine ⟨?_, ?_, ?_, ?_, ?_, ?_⟩
  · simp only [calculate_crc32, hc1, hc2]
  · simp only [calculate_crc32, hc1]
  · simp only [calculate_crc32, hc1, hci]
  · simp only [calculate_crc32, hc1, hlen]
  · simp only [calculate_crc32, hc1, hcc]
  · rw [hc1, hcc]

/-- Witness for C17: the zero-initialised table against an all-ones table. -/
theorem calculate_crc32_pure_witness :
    crc_table_init.length = 256 ∧ (List.replicate 256 0xFFFFFFFF).length = 256 ∧
      calculate_crc32 crc_table_init [0x31, 0x32] 2
        = calculate_crc32 (List.replicate 256 0xFFFFFFFF) [0x31, 0x32] 2 :=
  ⟨crc_table_init_length, List.length_replicate 256 0xFFFFFFFF,
    (calculate_crc32_pure crc_table_init (List.replicate 256 0xFFFFFFFF) [0x31, 0x32] 2
      crc_table_init_length (List.length_replicate 256 0xFFFFFFFF)).1⟩

/-! ## Sector padding and the entry point -/

theorem write_full_lba_size_loop_diverges (bound : Nat) (hb : 256 ≤ bound)
    (zero_sector : List Nat) (stored : Nat → Nat) (fuel : Nat) :
    ∀ i k image, i < 256 →
      write_full_lba_size.loop bound zero_sector stored fuel i k image = none := by
  induction fuel with
  | zero => intro i k image _; rfl
  | succ fuel ih =>
    intro i k image hi
    have hlt : i < bound := by omega
    rw [write_full_lba_size.loop, if_pos hlt]
    exact ih _ _ _ (Nat.mod_lt _ (by decide))

theorem write_full_lba_size_loop_terminates (bound : Nat) (hb : bound ≤ 255)
    (zero_sector : List Nat) (stored : Nat → Nat) :
    ∀ n fuel i k image, i + n = bound → n < fuel →
      ∃ rest, write_full_lba_size.loop bound zero_sector stored fuel i k image
        = some (k + n, image ++ rest) := by
  intro n
  induction n with
  | zero =>
    intro fuel i k image hin hf
    obtain ⟨f, rfl⟩ : ∃ f, fuel = f + 1 := ⟨fuel - 1, by omega⟩
    have hge : ¬ i < bound := by omega
    exact ⟨[], by rw [write_full_lba_size.loop, if_neg hge, List.append_nil, Nat.add_zero]⟩
  | succ n ih =>
    intro fuel i k image hin hf
    obtain ⟨f, rfl⟩ : ∃ f, fuel = f + 1 := ⟨fuel - 1, by omega⟩
    have hlt : i < bound := by omega
    have hmod : (i + 1) % 256 = i + 1 := Nat.mod_eq_of_lt (by omega)
    obtain ⟨rest, hrest⟩ := ih f (i + 1) (k + 1)
      (fwrite zero_sector 512 1 (stored k) image).2 (by omega) (by omega)
    refine ⟨List.take (min (stored k) (512 * 1)) zero_sector ++ rest, ?_⟩
    rw [write_full_lba_size.loop, if_pos hlt, hmod, hrest]
    simp only [fwrite, List.append_assoc]
    congr 2
    omega

theorem write_mbr_complete (image_size_lbas stored : Nat) (image : List Nat)
    (h : 512 ≤ stored) :
    write_mbr image_size_lbas stored image
      = (true, image ++ (write_mbr.mbr image_size_lbas).bytes) := by
  have hlen := write_mbr_bytes_length image_size_lbas
  have hk : min stored (1 * 512) = 512 := by omega
  simp only [write_mbr, fwrite, hk, Nat.div_one, ne_eq, not_true_eq_false, if_false]
  rw [← hlen, List.take_length]

theorem write_mbr_short (image_size_lbas stored : Nat) (image : List Nat)
    (h : stored < 512) :
    write_mbr image_size_lbas stored image
      = (false, image ++ (write_mbr.mbr image_size_lbas).bytes.take stored) := by
  have hk : min stored (1 * 512) = stored := by omega
  have hne : stored ≠ 512 := by omega
  simp only [write_mbr, fwrite, hk, Nat.div_one, ne_eq, hne, not_false_eq_true, if_true]

theorem main_returns (lba_size esp_size data_size : Nat) (rand : Nat → Nat)
    (zero_sector : List Nat) (stored : Nat → Nat) (fuel : Nat) (h0 : 512 ≤ stored 0) :
    main true lba_size esp_size data_size rand zero_sector stored fuel
      = (write_full_lba_size lba_size zero_sector (fun k => stored (k + 1)) fuel
          (write_mbr.mbr (main.image_size_lbas lba_size esp_size data_size)).bytes).map
        (fun p => (EXIT_SUCCESS, p.2)) := by
  have hm := write_mbr_complete (main.image_size_lbas lba_size esp_size data_size) (stored 0) []
    h0
  rw [List.nil_append] at hm
  generalize (write_mbr.mbr (main.image_size_lbas lba_size esp_size data_size)).bytes = b at hm ⊢
  unfold main
  simp only [hm, write_gpt, Bool.not_true, Bool.false_eq_true, if_false]
  generalize write_full_lba_size lba_size zero_sector (fun k => stored (k + 1)) fuel b = w
  cases w with
  | none => simp only [Option.map_none']
  | some p => simp only [Option.map_some']

theorem main_short_mbr_write (lba_size esp_size data_size : Nat) (rand : Nat → Nat)
    (zero_sector : List Nat) (stored : Nat → Nat) (fuel : Nat) (h0 : stored 0 < 512) :
    main true lba_size esp_size data_size rand zero_sector stored fuel
      = some (EXIT_FAILURE,
          (write_mbr.mbr (main.image_size_lbas lba_size esp_size data_size)).bytes.take
            (stored 0)) := by
  have hm := write_mbr_short (main.image_size_lbas lba_size esp_size data_size) (stored 0) []
    h0
  rw [List.nil_append] at hm
  generalize (write_mbr.mbr (main.image_size_lbas lba_size esp_size data_size)).bytes = b at hm ⊢
  unfold main
  simp only [hm, Bool.not_true, Bool.not_false, Bool.false_eq_true, if_false, if_true]

theorem write_full_lba_size_default (zero_sector : List Nat) (stored : Nat → Nat)
    (fuel : Nat) (image : List Nat) :
    write_full_lba_size 512 zero_sector stored (fuel + 1) image = some (0, image) := by
  have hb : sub64 512 512 / 512 = 0 := by decide
  have h0 : ¬ (0 < 0) := by decide
  unfold write_full_lba_size
  rw [hb, write_full_lba_size.loop, if_neg h0]

/-- C12 (evaluation of the code): with the default configuration and every
write complete, `main` computes `image_size_lbas = 71680`, returns
`EXIT_SUCCESS` and leaves an image that holds only the 512 bytes of the MBR,
not `71680 * 512` bytes. -/
theorem main_default_image_length (rand : Nat → Nat) (zero_sector : List Nat) (fuel : Nat) :
    main.image_size_lbas 512 (1024 * 1024 * 33) (1024 * 1024 * 1) = 71680 ∧
      main true 512 (1024 * 1024 * 33) (1024 * 1024 * 1) rand zero_sector (fun _ => 512)
          (fuel + 1)
        = some (EXIT_SUCCESS, (write_mbr.mbr 71680).bytes) ∧
      (write_mbr.mbr 71680).bytes.length = 512 ∧
      (write_mbr.mbr 71680).bytes.length ≠ 71680 * 512 := by
  have hi : main.image_size_lbas 512 (1024 * 1024 * 33) (1024 * 1024 * 1) = 71680 := by decide
  have hlen := write_mbr_bytes_length 71680
  refine ⟨hi, ?_, hlen, by rw [hlen]; decide⟩
  rw [main_returns 512 _ _ rand zero_sector (fun _ => 512) (fuel + 1) (Nat.le_refl 512), hi,
    write_full_lba_size_default]
  rfl

/-- C13 (evaluation of the code): `write_gpt` returns `true` and leaves the
image untouched; after a complete `write_mbr` followed by `write_gpt` the image
is the 512 bytes of the MBR, so there is no byte at offset 512 and no
`"EFI PART"` there. -/
theorem write_gpt_writes_nothing (image_size_lbas : Nat) (rand : Nat → Nat)
    (image : List Nat) :
    write_gpt image_size_lbas rand image = (true, image) ∧
      write_gpt image_size_lbas rand (write_mbr image_size_lbas 512 []).2
        = (true, (write_mbr.mbr image_size_lbas).bytes) ∧
      (write_mbr.mbr image_size_lbas).bytes.length = 512 ∧
      ((write_mbr.mbr image_size_lbas).bytes.drop 512).take 8 = [] ∧
      ((write_mbr.mbr image_size_lbas).bytes.drop 512).take 8
        ≠ "EFI PART".toList.map Char.toNat := by
  have hlen := write_mbr_bytes_length image_size_lbas
  have hd : (write_mbr.mbr image_size_lbas).bytes.drop 512 = [] :=
    List.drop_eq_nil_of_le (by omega)
  refine ⟨rfl, ?_, hlen, ?_, ?_⟩
  · rw [write_mbr_complete image_size_lbas 512 [] (Nat.le_refl 512), List.nil_append]
    rfl
  · rw [hd]
    rfl
  · rw [hd]
    decide

/-- C18 (evaluation of the code): with `lba_size = 1024`, the file opened and
the MBR write complete, a padding `fwrite` in `write_full_lba_size` that
stores 0 of its 512 bytes goes unreported: `main` returns `EXIT_SUCCESS`
(which is 0) and the image holds only the MBR. -/
theorem main_ignores_short_padding_write (esp_size data_size : Nat) (rand : Nat → Nat)
    (zero_sector : List Nat) (fuel : Nat) :
    main true 1024 esp_size data_size rand zero_sector (fun k => if k = 0 then 512 else 0)
        (fuel + 2)
      = some (EXIT_SUCCESS,
          (write_mbr.mbr (main.image_size_lbas 1024 esp_size data_size)).bytes) ∧
      EXIT_SUCCESS = 0 := by
  have hb : sub64 1024 512 / 512 = 1 := by decide
  have h01 : (0 : Nat) < 1 := by decide
  have h11 : ¬ ((0 + 1) % 256 < 1) := by decide
  refine ⟨?_, rfl⟩
  rw [main_returns 1024 esp_size data_size rand zero_sector (fun k => if k = 0 then 512 else 0)
    (fuel + 2) (Nat.le_refl 512)]
  unfold write_full_lba_size
  rw [hb, write_full_lba_size.loop, if_pos h01, write_full_lba_size.loop, if_neg h11]
  simp [fwrite]

/-- C19 (evaluation of the code): at `lba_size = 131584`, a multiple of 512
with `(lba_size - 512) / 512 = 256`, the loop of `write_full_lba_size` is
never left, whatever the fuel; at the default `lba_size = 512` the function
returns after no write. -/
theorem write_full_lba_size_diverges (zero_sector : List Nat) (stored : Nat → Nat)
    (fuel : Nat) (image : List Nat) :
    131584 % 512 = 0 ∧ sub64 131584 512 / 512 = 256 ∧
      write_full_lba_size 131584 zero_sector stored fuel image = none ∧
      write_full_lba_size 512 zero_sector stored (fuel + 1) image = some (0, image) := by
  have hb : sub64 131584 512 / 512 = 256 := by decide
  refine ⟨by decide, hb, ?_, write_full_lba_size_default zero_sector stored fuel image⟩
  unfold write_full_lba_size
  rw [hb]
  exact write_full_lba_size_loop_diverges 256 (Nat.le_refl 256) zero_sector stored fuel 0 0
    image (by decide)

/-! ## Checksums and the backup header in `write_gpt` -/

set_option maxRecDepth 20000 in
theorem primary_gpt_sample_bytes_lt :
    ∀ b ∈ (write_gpt.primary_gpt 71680 (fun _ => 0)).clear_header_crc32.bytes, b < 256 := by
  decide

theorem primary_gpt_sample_crc32_ref :
    crc32_ref ((write_gpt.primary_gpt 71680 (fun _ => 0)).clear_header_crc32.bytes.take 92)
      = 0x76233FF0 := by
  decide!

set_option maxRecDepth 20000 in
theorem primary_gpt_sample_length :
    92 ≤ (write_gpt.primary_gpt 71680 (fun _ => 0)).clear_header_crc32.bytes.length := by
  decide

/-- C11 (evaluation of the code): for every input the `header_crc32` field of
the header `write_gpt` ends with is 0; at `image_size_lbas = 71680` with every
`rand()` returning 0, `calculate_crc32` of the first 92 bytes of the header
serialised with `header_crc32` zeroed is 0x76233FF0, not 0. -/
theorem write_gpt_header_crc32_not_computed :
    (∀ (image_size_lbas : Nat) (rand : Nat → Nat),
        (write_gpt.primary_gpt image_size_lbas rand).header_crc32 = 0) ∧
      (calculate_crc32 crc_table_init
          (write_gpt.primary_gpt 71680 (fun _ => 0)).clear_header_crc32.bytes 92).1
        = 0x76233FF0 ∧
      (write_gpt.primary_gpt 71680 (fun _ => 0)).header_crc32
        ≠ (calculate_crc32 crc_table_init
            (write_gpt.primary_gpt 71680 (fun _ => 0)).clear_header_crc32.bytes 92).1 := by
  have hcrc : (calculate_crc32 crc_table_init
      (write_gpt.primary_gpt 71680 (fun _ => 0)).clear_header_crc32.bytes 92).1
        = 0x76233FF0 :=
    (calculate_crc32_take crc_table_init _ 92 crc_table_init_length
      primary_gpt_sample_bytes_lt primary_gpt_sample_length).trans primary_gpt_sample_crc32_ref
  have hz : (write_gpt.primary_gpt 71680 (fun _ => 0)).header_crc32 = 0 := rfl
  refine ⟨fun _ _ => rfl, hcrc, ?_⟩
  rw [hcrc, hz]
  decide

/-- C15 (evaluation of the code): for every input `write_gpt` returns `true`
with the image unchanged, having built the primary header only, whose
`partition_table_crc32` is the constant 0: no backup header and no partition
entry table is built or written. -/
theorem write_gpt_no_backup_header (image_size_lbas : Nat) (rand : Nat → Nat)
    (image : List Nat) :
    write_gpt image_size_lbas rand image = (true, image) ∧
      (write_gpt.primary_gpt image_size_lbas rand).partition_table_crc32 = 0 := by
  exact ⟨rfl, rfl⟩

/-! ## CRC32 detects a single corrupted byte -/

theorem crc32_ref_bit_eq_zero (z : Nat) (hz : z < 2 ^ 32) (h : crc32_ref_bit z = 0) :
    z = 0 := by
  unfold crc32_ref_bit at h
  by_cases h1 : z % 2 = 1
  · rw [if_pos h1] at h
    have hp : z / 2 = crc32_poly := Nat.xor_eq_zero.mp h
    unfold crc32_poly at hp
    omega
  · rw [if_neg h1] at h
    omega

theorem crc32_ref_bit_iterate_eq_zero (k z : Nat) (hz : z < 2 ^ 32)
    (h : crc32_ref_bit^[k] z = 0) : z = 0 := by
  induction k generalizing z with
  | zero => exact h
  | succ k ih =>
    rw [Function.iterate_succ_apply] at h
    exact crc32_ref_bit_eq_zero z hz (ih _ (crc32_ref_bit_lt z hz) h)

theorem crc32_ref_bit_iterate_inj (k a b : Nat) (ha : a < 2 ^ 32) (hb : b < 2 ^ 32)
    (h : crc32_ref_bit^[k] a = crc32_ref_bit^[k] b) : a = b := by
  have hx : crc32_ref_bit^[k] (a ^^^ b) = 0 := by
    rw [crc32_ref_bit_iterate_xor, h, Nat.xor_self]
  exact Nat.xor_eq_zero.mp
    (crc32_ref_bit_iterate_eq_zero k _ (Nat.xor_lt_two_pow ha hb) hx)

theorem crc32_ref_byte_inj_register (c d b : Nat) (hc : c < 2 ^ 32) (hd : d < 2 ^ 32)
    (hb : b < 256) (h : crc32_ref_byte c b = crc32_ref_byte d b) : c = d := by
  have hb32 : b < 2 ^ 32 := by omega
  exact Nat.xor_left_inj.mp (crc32_ref_bit_iterate_inj 8 _ _
    (Nat.xor_lt_two_pow hc hb32) (Nat.xor_lt_two_pow hd hb32) h)

theorem crc32_ref_byte_inj_byte (c x y : Nat) (hc : c < 2 ^ 32) (hx : x < 256) (hy : y < 256)
    (h : crc32_ref_byte c x = crc32_ref_byte c y) : x = y := by
  have hx32 : x < 2 ^ 32 := by omega
  have hy32 : y < 2 ^ 32 := by omega
  exact Nat.xor_right_inj.mp (crc32_ref_bit_iterate_inj 8 _ _
    (Nat.xor_lt_two_pow hc hx32) (Nat.xor_lt_two_pow hc hy32) h)

theorem crc32_ref_fold_inj (l : List Nat) (hl : ∀ b ∈ l, b < 256) (c d : Nat)
    (hc : c < 2 ^ 32) (hd : d < 2 ^ 32)
    (h : l.foldl crc32_ref_byte c = l.foldl crc32_ref_byte d) : c = d := by
  induction l generalizing c d with
  | nil => exact h
  | cons b l ih =>
    have hb : b < 256 := hl b (List.mem_cons_self _ _)
    rw [List.foldl_cons, List.foldl_cons] at h
    exact crc32_ref_byte_inj_register c d b hc hd hb
      (ih (fun x hx => hl x (List.mem_cons_of_mem _ hx)) _ _
        (crc32_ref_byte_lt c b hc hb) (crc32_ref_byte_lt d b hd hb) h)

theorem crc32_ref_single_byte (p s : List Nat) (x y : Nat)
    (hp : ∀ b ∈ p, b < 256) (hs : ∀ b ∈ s, b < 256) (hx : x < 256) (hy : y < 256)
    (hne : x ≠ y) : crc32_ref (p ++ x :: s) ≠ crc32_ref (p ++ y :: s) := by
  intro h
  unfold crc32_ref at h
  have hm : (0xFFFFFFFF : Nat) < 2 ^ 32 := by decide
  have hc := crc32_ref_fold_lt p hp 0xFFFFFFFF hm
  rw [List.foldl_append, List.foldl_append, List.foldl_cons, List.foldl_cons] at h
  have h2 := crc32_ref_fold_inj s hs _ _ (crc32_ref_byte_lt _ x hc hx)
    (crc32_ref_byte_lt _ y hc hy) (Nat.xor_left_inj.mp h)
  exact hne (crc32_ref_byte_inj_byte _ x y hc hx hy h2)

theorem single_position_split (a b : List Nat) (i : Nat) (hlen : a.length = b.length)
    (hi : i < a.length) (hsame : ∀ j, j ≠ i → a[j]? = b[j]?) :
    a = a.take i ++ a.getD i 0 :: a.drop (i + 1) ∧
      b = a.take i ++ b.getD i 0 :: a.drop (i + 1) := by
  have hib : i < b.length := by omega
  have ht : a.take i = b.take i := by
    apply List.ext_getElem?
    intro n
    rw [List.getElem?_take, List.getElem?_take]
    by_cases hn : n < i
    · rw [if_pos hn, if_pos hn]
      exact hsame n (by omega)
    · rw [if_neg hn, if_neg hn]
  have hd : a.drop (i + 1) = b.drop (i + 1) := by
    apply List.ext_getElem?
    intro n
    rw [List.getElem?_drop, List.getElem?_drop]
    exact hsame _ (by omega)
  constructor
  · rw [List.getD_eq_getElem _ _ hi, ← List.drop_eq_getElem_cons hi, List.take_append_drop]
  · rw [ht, hd, List.getD_eq_getElem _ _ hib, ← List.drop_eq_getElem_cons hib,
      List.take_append_drop]

theorem crc_table_top_bytes_nodup :
    (((List.range 256).map crc_table_entry).map (fun w => w >>> 24)).Nodup := by
  decide!

/-- C20: for every 256-entry content of `crc_table` and every two byte
sequences of the same length (less than 2^31) that differ in exactly one
position `i`, `calculate_crc32` returns different values; the 256 table
entries have pairwise distinct top bytes and so are pairwise distinct. -/
theorem calculate_crc32_single_byte_corruption (crc_table a b : List Nat) (i : Nat)
    (htbl : crc_table.length = 256) (ha : ∀ x ∈ a, x < 256) (hb : ∀ x ∈ b, x < 256)
    (hlen : a.length = b.length) (_h31 : a.length < 2 ^ 31) (hi : i < a.length)
    (hdiff : a[i]? ≠ b[i]?) (hsame : ∀ j, j ≠ i → a[j]? = b[j]?) :
    (calculate_crc32 crc_table a (a.length : Int)).1
        ≠ (calculate_crc32 crc_table b (b.length : Int)).1 ∧
      ((create_crc32_table crc_table).map (fun w => w >>> 24)).Nodup ∧
      (create_crc32_table crc_table).Nodup := by
  have hib : i < b.length := by omega
  have htop : ((create_crc32_table crc_table).map (fun w => w >>> 24)).Nodup := by
    rw [create_crc32_table_eq crc_table htbl]
    exact crc_table_top_bytes_nodup
  refine ⟨?_, htop, List.Nodup.of_map _ htop⟩
  have h1 := calculate_crc32_take crc_table a a.length htbl ha (Nat.le_refl _)
  have h2 := calculate_crc32_take crc_table b b.length htbl hb (Nat.le_refl _)
  rw [List.take_length] at h1 h2
  rw [h1, h2]
  obtain ⟨ea, eb⟩ := single_position_split a b i hlen hi hsame
  have hx : a.getD i 0 < 256 := by
    rw [List.getD_eq_getElem _ _ hi]
    exact ha _ (List.getElem_mem _)
  have hy : b.getD i 0 < 256 := by
    rw [List.getD_eq_getElem _ _ hib]
    exact hb _ (List.getElem_mem _)
  have hne : a.getD i 0 ≠ b.getD i 0 := by
    intro h
    apply hdiff
    rw [List.getElem?_eq_getElem hi, List.getElem?_eq_getElem hib]
    rw [List.getD_eq_getElem _ _ hi, List.getD_eq_getElem _ _ hib] at h
    rw [h]
  rw [ea, eb]
  exact crc32_ref_single_byte _ _ _ _
    (fun x hx' => ha x (List.mem_of_mem_take hx'))
    (fun x hx' => ha x (List.mem_of_mem_drop hx')) hx hy hne

/-- Witness for C20: `"12"` against `"13"`, which differ at position 1. -/
theorem calculate_crc32_single_byte_corruption_witness :
    (calculate_crc32 crc_table_init [0x31, 0x32] (([0x31, 0x32] : List Nat).length : Int)).1
      ≠ (calculate_crc32 crc_table_init [0x31, 0x33]
          (([0x31, 0x33] : List Nat).length : Int)).1 :=
  (calculate_crc32_single_byte_corruption crc_table_init [0x31, 0x32] [0x31, 0x33] 1
    crc_table_init_length (by decide) (by decide) (by decide) (by decide) (by decide)
    (by decide) (by
      intro j hj
      match j with
      | 0 => rfl
      | 1 => exact absurd rfl hj
      | j + 2 => rfl)).1

end WriteGpt
